import Mathlib

/-!
Verification of the MedSurvive Pro filter-and-derive pipeline
(`src/medsurvive_pro_app.py`).

The embedding models the loaded table as a list of patient records, the
sidebar selections as `FilterCriteria`, the pandas boolean-mask filter as
`filtered_data`, the grouped Kaplan-Meier stage as `estimate`, the Cox
stage (one-hot encoding, fit, and its `try/except` boundary) as
`data_encoded` / `coxStage`, and the static diagnosis map as
`diagnosis_map` / `lookup`.
-/

namespace MedSurvive

/-- A row of the loaded table.  Columns per the required CSV schema:
patient identifier, age, sex, diagnosis code, treatment type, duration,
event indicator. -/
structure PatientRecord where
  patient_id : String
  age : Int
  sex : String
  diagnosis_code : String
  treatment_type : String
  duration : Int
  event : Bool
deriving DecidableEq, Repr

/-- The sidebar selections: the `age_range` slider endpoints (inclusive)
and the three multiselect sets (`sex_filter`, `diag_filter`,
`treatment_filter`). -/
structure FilterCriteria where
  ageMin : Int
  ageMax : Int
  sexes : List String
  diags : List String
  treatments : List String
deriving DecidableEq, Repr

/-- One row of the combined boolean mask of lines 49-54:
`data.age.between(age_range[0], age_range[1]) & data.sex.isin(sex_filter)
& data.diagnosis_code.isin(diag_filter) &
data.treatment_type.isin(treatment_filter)`.  `between` is inclusive on
both ends; `isin` is set membership. -/
def rowPass (c : FilterCriteria) (r : PatientRecord) : Bool :=
  (c.ageMin ≤ r.age && r.age ≤ c.ageMax) &&
  c.sexes.contains r.sex &&
  c.diags.contains r.diagnosis_code &&
  c.treatments.contains r.treatment_type

/-- `filtered_data = data[mask]`: the rows of the table passing the
combined mask, in original order. -/
def filtered_data (t : List PatientRecord) (c : FilterCriteria) : List PatientRecord :=
  t.filter (rowPass c)

theorem rowPass_iff (c : FilterCriteria) (r : PatientRecord) :
    rowPass c r = true ↔
      (c.ageMin ≤ r.age ∧ r.age ≤ c.ageMax) ∧ r.sex ∈ c.sexes ∧
        r.diagnosis_code ∈ c.diags ∧ r.treatment_type ∈ c.treatments := by
  simp [rowPass, Bool.and_eq_true, decide_eq_true_eq, List.contains,
    List.elem_iff, and_assoc]

/-- C1: the Filter Engine returns exactly the rows whose age lies in the
inclusive range and whose sex, diagnosis code and treatment type each
belong to the corresponding accepted set (the four predicates combined
conjunctively), and the result is a subsequence of the input table
(original row order preserved). -/
theorem filter_engine_apply_exact (t : List PatientRecord) (c : FilterCriteria) :
    (∀ r : PatientRecord,
      r ∈ filtered_data t c ↔
        r ∈ t ∧ (c.ageMin ≤ r.age ∧ r.age ≤ c.ageMax) ∧ r.sex ∈ c.sexes ∧
          r.diagnosis_code ∈ c.diags ∧ r.treatment_type ∈ c.treatments) ∧
    (filtered_data t c).Sublist t := by
  refine ⟨fun r => ?_, List.filter_sublist t⟩
  rw [filtered_data, List.mem_filter, rowPass_iff]

/-- C7: applying the same criteria to the filtered subset again yields
the same subset (idempotence of the Filter Engine). -/
theorem filter_engine_idempotent (t : List PatientRecord) (c : FilterCriteria) :
    filtered_data (filtered_data t c) c = filtered_data t c := by
  apply List.filter_eq_self.mpr
  intro r hr
  exact (List.mem_filter.mp hr).2

/-- Minimum of the ages of a table, as `int(data.age.min())` computes it
(0 on an empty table, where the slider is never built). -/
def tableAgeMin : List PatientRecord → Int
  | [] => 0
  | r :: rs => (rs.map (·.age)).foldl min r.age

/-- Maximum of the ages of a table, as `int(data.age.max())` computes it. -/
def tableAgeMax : List PatientRecord → Int
  | [] => 0
  | r :: rs => (rs.map (·.age)).foldl max r.age

/-- The criteria built from the widget defaults: the slider spans the
table's minimum to maximum age, and each multiselect defaults to all
distinct values of its column (`data.sex.unique()` and so on). -/
def allAcceptingCriteria (t : List PatientRecord) : FilterCriteria where
  ageMin := tableAgeMin t
  ageMax := tableAgeMax t
  sexes := (t.map (·.sex)).dedup
  diags := (t.map (·.diagnosis_code)).dedup
  treatments := (t.map (·.treatment_type)).dedup

theorem foldl_min_le_init (l : List Int) (a : Int) : l.foldl min a ≤ a := by
  induction l generalizing a with
  | nil => exact le_refl a
  | cons x xs ih =>
    calc (x :: xs).foldl min a = xs.foldl min (min a x) := rfl
    _ ≤ min a x := ih (min a x)
    _ ≤ a := min_le_left a x

theorem foldl_min_le_mem (l : List Int) (a x : Int) (hx : x ∈ l) :
    l.foldl min a ≤ x := by
  induction l generalizing a with
  | nil => cases hx
  | cons y ys ih =>
    rcases List.mem_cons.mp hx with h | h
    · subst h
      calc (x :: ys).foldl min a = ys.foldl min (min a x) := rfl
      _ ≤ min a x := foldl_min_le_init ys (min a x)
      _ ≤ x := min_le_right a x
    · exact ih (min a y) h

theorem init_le_foldl_max (l : List Int) (a : Int) : a ≤ l.foldl max a := by
  induction l generalizing a with
  | nil => exact le_refl a
  | cons x xs ih =>
    calc a ≤ max a x := le_max_left a x
    _ ≤ xs.foldl max (max a x) := ih (max a x)
    _ = (x :: xs).foldl max a := rfl

theorem mem_le_foldl_max (l : List Int) (a x : Int) (hx : x ∈ l) :
    x ≤ l.foldl max a := by
  induction l generalizing a with
  | nil => cases hx
  | cons y ys ih =>
    rcases List.mem_cons.mp hx with h | h
    · subst h
      calc x ≤ max a x := le_max_right a x
      _ ≤ ys.foldl max (max a x) := init_le_foldl_max ys (max a x)
      _ = (x :: ys).foldl max a := rfl
    · exact ih (max a y) h

theorem tableAgeMin_le (t : List PatientRecord) (r : PatientRecord) (hr : r ∈ t) :
    tableAgeMin t ≤ r.age := by
  cases t with
  | nil => cases hr
  | cons s rs =>
    rcases List.mem_cons.mp hr with h | h
    · subst h; exact foldl_min_le_init _ _
    · exact foldl_min_le_mem _ _ _ (List.mem_map_of_mem (·.age) h)

theorem le_tableAgeMax (t : List PatientRecord) (r : PatientRecord) (hr : r ∈ t) :
    r.age ≤ tableAgeMax t := by
  cases t with
  | nil => cases hr
  | cons s rs =>
    rcases List.mem_cons.mp hr with h | h
    · subst h; exact init_le_foldl_max _ _
    · exact mem_le_foldl_max _ _ _ (List.mem_map_of_mem (·.age) h)

/-- C10: filtering with the all-accepting criteria — the age range
spanning the table's minimum to maximum age and, for each categorical
field, the set of all distinct values occurring in the table — returns
the table unchanged. -/
theorem filter_all_accepting_identity (t : List PatientRecord) :
    filtered_data t (allAcceptingCriteria t) = t := by
  apply List.filter_eq_self.mpr
  intro r hr
  rw [rowPass_iff]
  refine ⟨⟨tableAgeMin_le t r hr, le_tableAgeMax t r hr⟩, ?_, ?_, ?_⟩ <;>
    · rw [allAcceptingCriteria]
      exact List.mem_dedup.mpr (List.mem_map_of_mem _ hr)

/-- Insert a value into a list, before the first element it is ≤.  Used
to model the sorted orders pandas fixes: `groupby` sorts its group keys
and `get_dummies` sorts the category levels. -/
def insort {α : Type} [LinearOrder α] (x : α) : List α → List α
  | [] => [x]
  | y :: ys => if x ≤ y then x :: y :: ys else y :: insort x ys

/-- Insertion sort into ascending order. -/
def sortList {α : Type} [LinearOrder α] : List α → List α
  | [] => []
  | x :: xs => insort x (sortList xs)

theorem mem_insort {α : Type} [LinearOrder α] (x a : α) (l : List α) :
    a ∈ insort x l ↔ a = x ∨ a ∈ l := by
  induction l with
  | nil => simp [insort]
  | cons y ys ih =>
    by_cases h : x ≤ y
    · simp [insort, h]
    · simp [insort, h, ih]; tauto

theorem mem_sortList {α : Type} [LinearOrder α] (a : α) (l : List α) :
    a ∈ sortList l ↔ a ∈ l := by
  induction l with
  | nil => simp [sortList]
  | cons x xs ih => simp [sortList, mem_insort, ih]

theorem length_insort {α : Type} [LinearOrder α] (x : α) (l : List α) :
    (insort x l).length = l.length + 1 := by
  induction l with
  | nil => rfl
  | cons y ys ih =>
    by_cases h : x ≤ y <;> simp [insort, h, ih]

theorem length_sortList {α : Type} [LinearOrder α] (l : List α) :
    (sortList l).length = l.length := by
  induction l with
  | nil => rfl
  | cons x xs ih => simp [sortList, length_insort, ih]

theorem pairwise_insort {α : Type} [LinearOrder α] (x : α) (l : List α)
    (hl : l.Pairwise (· ≤ ·)) : (insort x l).Pairwise (· ≤ ·) := by
  induction l with
  | nil => simp [insort]
  | cons y ys ih =>
    rcases List.pairwise_cons.mp hl with ⟨hy, hys⟩
    by_cases h : x ≤ y
    · rw [insort, if_pos h]
      refine List.pairwise_cons.mpr ⟨?_, hl⟩
      intro b hb
      rcases List.mem_cons.mp hb with hb | hb
      · exact hb ▸ h
      · exact le_trans h (hy b hb)
    · rw [insort, if_neg h]
      refine List.pairwise_cons.mpr ⟨?_, ih hys⟩
      intro b hb
      rcases (mem_insort x b ys).mp hb with hb | hb
      · exact hb ▸ le_of_not_le h
      · exact hy b hb

theorem pairwise_sortList {α : Type} [LinearOrder α] (l : List α) :
    (sortList l).Pairwise (· ≤ ·) := by
  induction l with
  | nil => simp [sortList]
  | cons x xs ih => exact pairwise_insort x (sortList xs) ih

/-- Modelled from the spec: the Kaplan-Meier estimator is delegated to
the external statistics library (`KaplanMeierFitter`), whose internals
are not in this repository.  A fit observation is a (duration, event)
pair.  `kmAtRisk rows t` is the number at risk just before time `t`:
the observations with duration ≥ t; censored observations (event=false)
leave the risk set after their duration. -/
def kmAtRisk (rows : List (Int × Bool)) (t : Int) : Nat :=
  (rows.filter (fun r => t ≤ r.1)).length

/-- Modelled from the spec: `kmDeaths rows t` is the number of events at
time `t`; censored observations are not counted as events. -/
def kmDeaths (rows : List (Int × Bool)) (t : Int) : Nat :=
  (rows.filter (fun r => r.1 == t && r.2)).length

/-- Modelled from the spec: the distinct event times of the sample, in
ascending order. -/
def kmEventTimes (rows : List (Int × Bool)) : List Int :=
  sortList ((rows.filter (·.2)).map (·.1)).dedup

/-- Modelled from the spec: the factor (1 − d_t/n_t) by which the
survival probability multiplies at event time `t`. -/
def kmFactor (rows : List (Int × Bool)) (t : Int) : Rat :=
  1 - (kmDeaths rows t : Rat) / (kmAtRisk rows t : Rat)

/-- Modelled from the spec: the step points after time 0, accumulating
the product of the factors along the distinct event times. -/
def kmSteps (rows : List (Int × Bool)) : Rat → List Int → List (Int × Rat)
  | _, [] => []
  | s, t :: ts => (t, s * kmFactor rows t) :: kmSteps rows (s * kmFactor rows t) ts

/-- Modelled from the spec: the survival step function, anchored at 1.0
at time 0. -/
def kmPoints (rows : List (Int × Bool)) : List (Int × Rat) :=
  (0, 1) :: kmSteps rows 1 (kmEventTimes rows)

/-- A survival curve: a label and the step points of the estimated
survival function. -/
structure SurvivalCurve where
  label : String
  points : List (Int × Rat)
deriving DecidableEq, Repr

/-- Modelled from the spec: `kmf.fit(durations, events, label)` followed
by reading `kmf.survival_function_`. -/
def kmFit (label : String) (rows : List (Int × Bool)) : SurvivalCurve where
  label := label
  points := kmPoints rows

theorem kmDeaths_le_kmAtRisk (rows : List (Int × Bool)) (t : Int) :
    kmDeaths rows t ≤ kmAtRisk rows t := by
  apply List.Sublist.length_le
  apply List.monotone_filter_right
  intro r hr
  simp only [Bool.and_eq_true, beq_iff_eq] at hr
  simp [hr.1]

theorem kmAtRisk_pos (rows : List (Int × Bool)) (t : Int)
    (ht : t ∈ kmEventTimes rows) : 0 < kmAtRisk rows t := by
  rw [kmEventTimes, mem_sortList, List.mem_dedup] at ht
  rcases List.mem_map.mp ht with ⟨r, hr, hrt⟩
  rcases List.mem_filter.mp hr with ⟨hmem, hev⟩
  apply List.length_pos_of_mem (a := r)
  rw [List.mem_filter]
  exact ⟨hmem, by simp [hrt]⟩

theorem kmDeaths_pos (rows : List (Int × Bool)) (t : Int)
    (ht : t ∈ kmEventTimes rows) : 0 < kmDeaths rows t := by
  rw [kmEventTimes, mem_sortList, List.mem_dedup] at ht
  rcases List.mem_map.mp ht with ⟨r, hr, hrt⟩
  rcases List.mem_filter.mp hr with ⟨hmem, hev⟩
  apply List.length_pos_of_mem (a := r)
  rw [List.mem_filter]
  refine ⟨hmem, ?_⟩
  simp only [Bool.and_eq_true, beq_iff_eq]
  exact ⟨hrt, by simpa using hev⟩

theorem kmFactor_nonneg (rows : List (Int × Bool)) (t : Int)
    (ht : t ∈ kmEventTimes rows) : 0 ≤ kmFactor rows t := by
  have hpos : (0 : Rat) < (kmAtRisk rows t : Rat) := by
    exact_mod_cast kmAtRisk_pos rows t ht
  have hle : (kmDeaths rows t : Rat) ≤ (kmAtRisk rows t : Rat) := by
    exact_mod_cast kmDeaths_le_kmAtRisk rows t
  have : (kmDeaths rows t : Rat) / (kmAtRisk rows t : Rat) ≤ 1 :=
    (div_le_one hpos).mpr hle
  simpa [kmFactor] using this

theorem kmFactor_le_one (rows : List (Int × Bool)) (t : Int) :
    kmFactor rows t ≤ 1 := by
  have : (0 : Rat) ≤ (kmDeaths rows t : Rat) / (kmAtRisk rows t : Rat) :=
    div_nonneg (Nat.cast_nonneg _) (Nat.cast_nonneg _)
  simpa [kmFactor] using this

theorem kmSteps_bounds (rows : List (Int × Bool)) (ts : List Int) (s : Rat)
    (hts : ∀ t ∈ ts, 0 ≤ kmFactor rows t) (hs0 : 0 ≤ s) (hs1 : s ≤ 1) :
    ∀ p ∈ kmSteps rows s ts, 0 ≤ p.2 ∧ p.2 ≤ 1 := by
  induction ts generalizing s with
  | nil => intro p hp; cases hp
  | cons t ts ih =>
    intro p hp
    have hf0 : 0 ≤ kmFactor rows t := hts t (List.mem_cons_self t ts)
    have hf1 : kmFactor rows t ≤ 1 := kmFactor_le_one rows t
    have hsf0 : 0 ≤ s * kmFactor rows t := mul_nonneg hs0 hf0
    have hsf1 : s * kmFactor rows t ≤ 1 := mul_le_one₀ hs1 hf0 hf1
    rcases List.mem_cons.mp hp with h | h
    · exact h ▸ ⟨hsf0, hsf1⟩
    · exact ih (s * kmFactor rows t)
        (fun u hu => hts u (List.mem_cons_of_mem t hu)) hsf0 hsf1 p h

theorem kmSteps_chain_le (rows : List (Int × Bool)) (ts : List Int) (s : Rat)
    (p : Int × Rat) (hts : ∀ t ∈ ts, 0 ≤ kmFactor rows t) (hs0 : 0 ≤ s)
    (hp : p.2 = s) :
    List.Chain' (fun a b : Int × Rat => b.2 ≤ a.2) (p :: kmSteps rows s ts) := by
  induction ts generalizing s p with
  | nil => simp [kmSteps]
  | cons t ts ih =>
    rw [kmSteps]
    refine List.chain'_cons.mpr ⟨?_, ?_⟩
    · calc s * kmFactor rows t ≤ s := mul_le_of_le_one_right hs0 (kmFactor_le_one rows t)
      _ = p.2 := hp.symm
    · exact ih (s * kmFactor rows t) (t, s * kmFactor rows t)
        (fun u hu => hts u (List.mem_cons_of_mem t hu))
        (mul_nonneg hs0 (hts t (List.mem_cons_self t ts))) rfl

theorem kmSteps_chain_mul (rows : List (Int × Bool)) (ts : List Int) (s : Rat)
    (p : Int × Rat) (hp : p.2 = s) :
    List.Chain' (fun a b : Int × Rat => b.2 = a.2 * kmFactor rows b.1)
      (p :: kmSteps rows s ts) := by
  induction ts generalizing s p with
  | nil => simp [kmSteps]
  | cons t ts ih =>
    rw [kmSteps]
    exact List.chain'_cons.mpr ⟨by rw [hp], ih (s * kmFactor rows t) _ rfl⟩

theorem kmPoints_mem_bounds (rows : List (Int × Bool)) :
    ∀ p ∈ kmPoints rows, 0 ≤ p.2 ∧ p.2 ≤ 1 := by
  intro p hp
  rcases List.mem_cons.mp hp with h | h
  · rw [h]; exact ⟨zero_le_one, le_refl 1⟩
  · exact kmSteps_bounds rows (kmEventTimes rows) 1
      (fun t ht => kmFactor_nonneg rows t ht) zero_le_one (le_refl 1) p h

theorem kmPoints_chain_le (rows : List (Int × Bool)) :
    List.Chain' (fun a b : Int × Rat => b.2 ≤ a.2) (kmPoints rows) :=
  kmSteps_chain_le rows (kmEventTimes rows) 1 (0, 1)
    (fun t ht => kmFactor_nonneg rows t ht) zero_le_one rfl

theorem kmPoints_chain_mul (rows : List (Int × Bool)) :
    List.Chain' (fun a b : Int × Rat => b.2 = a.2 * kmFactor rows b.1)
      (kmPoints rows) :=
  kmSteps_chain_mul rows (kmEventTimes rows) 1 (0, 1) rfl

/-- The `group_by` selectbox options other than `None`. -/
inductive GroupField
  | sex
  | treatment_type
  | diagnosis_code
deriving DecidableEq, Repr

/-- The column a `GroupField` selects. -/
def fieldValue : GroupField → PatientRecord → String
  | .sex => (·.sex)
  | .treatment_type => (·.treatment_type)
  | .diagnosis_code => (·.diagnosis_code)

/-- The (duration, event) observation columns passed to `kmf.fit`. -/
def toObservations (subset : List PatientRecord) : List (Int × Bool) :=
  subset.map (fun r => (r.duration, r.event))

/-- The keys `filtered_data.groupby(group_by)` iterates over: the
distinct values of the column, in sorted order (pandas `groupby` sorts
its keys). -/
def groupKeys (subset : List PatientRecord) (f : GroupField) : List String :=
  sortList ((subset.map (fieldValue f)).dedup)

/-- The rows of one `groupby` group, in original order. -/
def groupRows (subset : List PatientRecord) (f : GroupField) (k : String) :
    List PatientRecord :=
  subset.filter (fun r => fieldValue f r == k)

/-- Modelled from the spec: the external estimator's handling of a
zero-row sample is not in this repository; per the spec a partition
with zero rows is skipped with a warning rather than fitted, so an
empty subset yields zero curves.  The rest follows lines 74-82: one
fitted curve per `groupby` group when a group field is selected,
otherwise a single curve labeled "All Patients" over the whole
subset. -/
def estimate (subset : List PatientRecord) (group_by : Option GroupField) :
    List SurvivalCurve :=
  match group_by with
  | some f => (groupKeys subset f).map
      (fun k => kmFit k (toObservations (groupRows subset f k)))
  | none => if subset.isEmpty then [] else
      [kmFit "All Patients" (toObservations subset)]

theorem estimate_mem_km (subset : List PatientRecord) (g : Option GroupField)
    (c : SurvivalCurve) (hc : c ∈ estimate subset g) :
    ∃ rows : List (Int × Bool),
      rows.Sublist (toObservations subset) ∧ c = kmFit c.label rows := by
  cases g with
  | none =>
    rw [estimate] at hc
    by_cases he : subset.isEmpty
    · rw [if_pos he] at hc; cases hc
    · rw [if_neg he] at hc
      rcases List.mem_singleton.mp hc with rfl
      exact ⟨toObservations subset, List.Sublist.refl _, rfl⟩
  | some f =>
    rw [estimate] at hc
    rcases List.mem_map.mp hc with ⟨k, _, hk⟩
    refine ⟨toObservations (groupRows subset f k), ?_, ?_⟩
    · exact List.Sublist.map _ (List.filter_sublist subset)
    · rw [← hk]; rfl

/-- C2: every curve the Survival Estimator produces is a Kaplan-Meier
survival function over a sub-sample of the subset's (duration, event)
observations: it is anchored at probability 1.0 at time 0, every value
lies in [0,1], it is monotonically non-increasing, and at each step the
probability multiplies by (1 − d_t/n_t) where d_t counts the events at
time t and n_t the observations still at risk (duration ≥ t, censored
rows included until their duration and never counted as events). -/
theorem km_survival_function_valid (subset : List PatientRecord)
    (g : Option GroupField) (c : SurvivalCurve) (hc : c ∈ estimate subset g) :
    c.points.head? = some (0, 1) ∧
    (∀ p ∈ c.points, 0 ≤ p.2 ∧ p.2 ≤ 1) ∧
    List.Chain' (fun p q : Int × Rat => q.2 ≤ p.2) c.points ∧
    ∃ rows : List (Int × Bool),
      rows.Sublist (toObservations subset) ∧ c = kmFit c.label rows ∧
      List.Chain' (fun p q : Int × Rat =>
          q.2 = p.2 * (1 - (kmDeaths rows q.1 : Rat) / (kmAtRisk rows q.1 : Rat)))
        c.points := by
  rcases estimate_mem_km subset g c hc with ⟨rows, hsub, hc'⟩
  have hpts : c.points = kmPoints rows := by rw [hc']; rfl
  refine ⟨?_, ?_, ?_, rows, hsub, hc', ?_⟩
  · rw [hpts]; rfl
  · rw [hpts]; exact kmPoints_mem_bounds rows
  · rw [hpts]; exact kmPoints_chain_le rows
  · rw [hpts]
    have := kmPoints_chain_mul rows
    simpa [kmFactor] using this

/-- Witness for C2 at a concrete one-row subset. -/
theorem km_survival_function_valid_witness :
    (kmFit "All Patients" [((10 : Int), true)]) ∈
        estimate [⟨"p1", 50, "M", "I10", "medical", 10, true⟩] none ∧
      (kmFit "All Patients" [((10 : Int), true)]).points.head? = some (0, 1) ∧
      List.Chain' (fun p q : Int × Rat => q.2 ≤ p.2)
        (kmFit "All Patients" [((10 : Int), true)]).points := by
  have hmem : (kmFit "All Patients" [((10 : Int), true)]) ∈
      estimate [⟨"p1", 50, "M", "I10", "medical", 10, true⟩] none :=
    List.mem_singleton.mpr rfl
  exact ⟨hmem, (km_survival_function_valid _ none _ hmem).1,
    (km_survival_function_valid _ none _ hmem).2.2.1⟩

/-- C3 counterexample: on the empty filtered subset with `group_by`
absent the Survival Estimator yields zero curves, not exactly one. -/
theorem estimate_empty_none_not_one_curve :
    ¬ (estimate ([] : List PatientRecord) none).length = 1 := by
  decide

/-- C3 (amended to non-empty subsets): on a non-empty filtered subset,
with `group_by` absent the estimator produces exactly one curve labeled
"All Patients"; with `group_by` present it produces exactly one curve
per distinct value of the grouping field (each such group being
non-empty), in sorted key order — a deterministic partition order. -/
theorem estimate_curve_counts (subset : List PatientRecord) (f : GroupField) :
    (subset ≠ [] →
      (estimate subset none).map SurvivalCurve.label = ["All Patients"]) ∧
    (estimate subset (some f)).length =
      ((subset.map (fieldValue f)).dedup).length ∧
    (estimate subset (some f)).map SurvivalCurve.label = groupKeys subset f ∧
    ∀ k ∈ groupKeys subset f, groupRows subset f k ≠ [] := by
  refine ⟨?_, ?_, ?_, ?_⟩
  · intro hne
    obtain ⟨r, rs, rfl⟩ : ∃ r rs, subset = r :: rs := by
      cases subset with
      | nil => exact absurd rfl hne
      | cons r rs => exact ⟨r, rs, rfl⟩
    rfl
  · rw [estimate, List.length_map, groupKeys, length_sortList]
  · rw [estimate, List.map_map]
    exact List.map_id'' (fun k => rfl) _
  · intro k hk
    rw [groupKeys, mem_sortList, List.mem_dedup] at hk
    rcases List.mem_map.mp hk with ⟨q, hq, hqk⟩
    apply List.ne_nil_of_mem (a := q)
    rw [groupRows, List.mem_filter]
    exact ⟨hq, by simp [hqk]⟩

/-- Witness for the amended C3 at a concrete two-row subset with two
distinct sexes. -/
theorem estimate_curve_counts_witness :
    (estimate [⟨"p1", 50, "M", "I10", "medical", 10, true⟩,
        ⟨"p2", 60, "F", "E11", "surgical", 5, false⟩] none).map
        SurvivalCurve.label = ["All Patients"] ∧
      (estimate [⟨"p1", 50, "M", "I10", "medical", 10, true⟩,
          ⟨"p2", 60, "F", "E11", "surgical", 5, false⟩]
          (some GroupField.sex)).length = 2 :=
  ⟨(estimate_curve_counts _ GroupField.sex).1 (by decide),
    ((estimate_curve_counts _ GroupField.sex).2.1).trans (by decide)⟩

/-- C4: if any categorical selection set of the criteria is empty, the
filter yields the empty subset, and the Survival Estimator run on that
empty subset returns zero curves (for every grouping choice) rather
than raising an error. -/
theorem empty_selection_empty_result (t : List PatientRecord)
    (c : FilterCriteria)
    (h : c.sexes = [] ∨ c.diags = [] ∨ c.treatments = []) :
    filtered_data t c = [] ∧ ∀ g, estimate (filtered_data t c) g = [] := by
  have hfd : filtered_data t c = [] := by
    rw [filtered_data, List.filter_eq_nil_iff]
    intro r hr
    rcases h with h | h | h <;> simp [rowPass, h]
  refine ⟨hfd, ?_⟩
  intro g
  rw [hfd]
  cases g with
  | none => rfl
  | some f => rfl

/-- Witness for C4 at a one-row table with an empty sex selection. -/
theorem empty_selection_empty_result_witness :
    filtered_data [⟨"p1", 50, "M", "I10", "medical", 10, true⟩]
        ⟨0, 100, [], ["I10"], ["medical"]⟩ = [] ∧
      ∀ g, estimate (filtered_data [⟨"p1", 50, "M", "I10", "medical", 10, true⟩]
        ⟨0, 100, [], ["I10"], ["medical"]⟩) g = [] :=
  empty_selection_empty_result _ _ (Or.inl rfl)

/-- The non-identifier columns of a record, as produced by
`filtered_data.drop(columns=["patient_id"])` on line 90. -/
structure ClinicalRow where
  age : Int
  sex : String
  diagnosis_code : String
  treatment_type : String
  duration : Int
  event : Bool
deriving DecidableEq, Repr

/-- Dropping the `patient_id` column from one record. -/
def dropPatientId (r : PatientRecord) : ClinicalRow where
  age := r.age
  sex := r.sex
  diagnosis_code := r.diagnosis_code
  treatment_type := r.treatment_type
  duration := r.duration
  event := r.event

/-- The indicator-column levels of one categorical column under
`pd.get_dummies(..., drop_first=True)`: the distinct values in sorted
order with the first (the reference level) dropped. -/
def dummyLevels (vals : List String) : List String :=
  (sortList vals.dedup).drop 1

/-- An encoded design matrix: a column layout and one numeric row per
record. -/
structure EncodedMatrix where
  cols : List String
  rows : List (List Rat)
deriving DecidableEq, Repr

/-- One-hot encoding of one row given the three dummy-level lists. -/
def encodeRow (sexLv diagLv trtLv : List String) (r : ClinicalRow) : List Rat :=
  [(r.age : Rat), (r.duration : Rat), if r.event then 1 else 0]
    ++ sexLv.map (fun v => if r.sex = v then (1 : Rat) else 0)
    ++ diagLv.map (fun v => if r.diagnosis_code = v then (1 : Rat) else 0)
    ++ trtLv.map (fun v => if r.treatment_type = v then (1 : Rat) else 0)

/-- `pd.get_dummies(..., drop_first=True)` over the non-identifier
columns: numeric columns pass through, each categorical column becomes
one indicator column per non-reference level, under the fixed sorted
category ordering. -/
def encodeClinical (rows : List ClinicalRow) : EncodedMatrix :=
  let sexLv := dummyLevels (rows.map (·.sex))
  let diagLv := dummyLevels (rows.map (·.diagnosis_code))
  let trtLv := dummyLevels (rows.map (·.treatment_type))
  { cols := ["age", "duration", "event"] ++ sexLv.map (fun v => "sex_" ++ v)
      ++ diagLv.map (fun v => "diagnosis_code_" ++ v)
      ++ trtLv.map (fun v => "treatment_type_" ++ v),
    rows := rows.map (encodeRow sexLv diagLv trtLv) }

/-- `data_encoded` (line 90): drop the identifier column, then one-hot
encode. -/
def data_encoded (subset : List PatientRecord) : EncodedMatrix :=
  encodeClinical (subset.map dropPatientId)

/-- C8: the Risk Model Fitter's preprocessing is deterministic — any two
runs on subsets that agree on every non-identifier field produce
identical encoded matrices with identical column layouts (so equal
subsets do, and the patient identifier is excluded from the encoding);
moreover each category's dummy levels are in sorted order with exactly
one reference level dropped. -/
theorem cox_preprocessing_deterministic (s t : List PatientRecord)
    (h : s.map dropPatientId = t.map dropPatientId) :
    data_encoded s = data_encoded t ∧
    (data_encoded s).cols = (data_encoded t).cols ∧
    (∀ vals : List String, (dummyLevels vals).Pairwise (· ≤ ·)) ∧
    (∀ vals : List String,
      (dummyLevels vals).length = vals.dedup.length - 1) := by
  have hdet : data_encoded s = data_encoded t := by
    rw [data_encoded, data_encoded, h]
  refine ⟨hdet, by rw [hdet], ?_, ?_⟩
  · intro vals
    exact List.Pairwise.sublist (List.drop_sublist 1 _) (pairwise_sortList vals.dedup)
  · intro vals
    rw [dummyLevels, List.length_drop, length_sortList]

/-- Witness for C8: two one-row subsets differing only in the patient
identifier encode to the same matrix. -/
theorem cox_preprocessing_deterministic_witness :
    data_encoded [⟨"p1", 50, "M", "I10", "medical", 10, true⟩] =
      data_encoded [⟨"p2", 50, "M", "I10", "medical", 10, true⟩] :=
  (cox_preprocessing_deterministic _ _ rfl).1

/-- The failure kinds of the Risk Model Fitter. -/
inductive FitError
  | emptyData
  | rankDeficient
deriving DecidableEq, Repr

/-- A displayable description of a fit failure. -/
def fitErrorMessage : FitError → String
  | .emptyData => "the subset is empty"
  | .rankDeficient => "rank-deficient design"

/-- The fitted coefficient table: one row per encoded covariate. -/
structure CoxSummary where
  covariates : List String
deriving DecidableEq, Repr

/-- The encoded covariate columns: every column except the duration and
event columns. -/
def covariateCols (m : EncodedMatrix) : List String :=
  m.cols.filter (fun c => !(c == "duration") && !(c == "event"))

/-- Modelled from the spec: `CoxPHFitter.fit` lives in the external
statistics library, not in this repository; per the spec it fails with
`FitError` when the subset is empty or has fewer distinct rows than
encoded covariates (rank-deficient design), and otherwise returns the
coefficient table with one row per encoded covariate. -/
def coxFit (m : EncodedMatrix) : Except FitError CoxSummary :=
  if m.rows.isEmpty then .error .emptyData
  else if m.rows.dedup.length < (covariateCols m).length then
    .error .rankDeficient
  else .ok ⟨covariateCols m⟩

/-- What the Cox section of the page ends up showing: either the fitted
summary or the error banner. -/
inductive StageView
  | rendered (summary : CoxSummary)
  | errorMessage (msg : String)
deriving DecidableEq, Repr

/-- The Cox stage with its stage-boundary handler (lines 89-104): the
encode-and-fit body runs inside `try`, and any fit failure is caught by
the `except` clause and surfaced as the displayable message
`st.error("Error fitting Cox model: ...")`. -/
def coxStage (subset : List PatientRecord) : StageView :=
  match coxFit (data_encoded subset) with
  | .ok s => .rendered s
  | .error e => .errorMessage ("Error fitting Cox model: " ++ fitErrorMessage e)

/-- C5: on a filtered subset that is empty or has fewer distinct rows
than encoded covariates, the fit fails with a `FitError`, and the stage
boundary catches it and surfaces a displayable message — the stage
always yields a view, never an uncaught failure. -/
theorem cox_fit_error_surfaced (subset : List PatientRecord)
    (h : (data_encoded subset).rows = [] ∨
      (data_encoded subset).rows.dedup.length <
        (covariateCols (data_encoded subset)).length) :
    (∃ e, coxFit (data_encoded subset) = .error e) ∧
    (∃ msg, coxStage subset = .errorMessage msg) := by
  have he : ∃ e, coxFit (data_encoded subset) = .error e := by
    rcases h with h | h
    · exact ⟨.emptyData, by simp [coxFit, h]⟩
    · by_cases hemp : (data_encoded subset).rows.isEmpty
      · exact ⟨.emptyData, by simp [coxFit, hemp]⟩
      · exact ⟨.rankDeficient, by simp [coxFit, hemp, h]⟩
  rcases he with ⟨e, hee⟩
  exact ⟨⟨e, hee⟩, ⟨_, by rw [coxStage, hee]⟩⟩

/-- Witness for C5 at the empty subset. -/
theorem cox_fit_error_surfaced_witness :
    (∃ e, coxFit (data_encoded []) = .error e) ∧
      (∃ msg, coxStage [] = .errorMessage msg) :=
  cox_fit_error_surfaced [] (Or.inl rfl)

/-- The static diagnosis→treatment map (lines 120-129): code paired
with the condition name, the recommended treatments and the suggested
procedures. -/
def diagnosis_map : List (String × String × List String × List String) :=
  [("I10", "Hypertension", ["ACE Inhibitors", "Beta Blockers"],
      ["Blood Pressure Monitoring"]),
   ("E11", "Type 2 Diabetes", ["Insulin", "Metformin"],
      ["HbA1c Test", "Retinal Screening"]),
   ("J44", "COPD", ["Bronchodilators", "Steroids"],
      ["Pulmonary Function Test"]),
   ("K21", "GERD", ["Antacids", "PPIs"], ["Endoscopy"]),
   ("N18", "Chronic Kidney Disease", ["Dialysis", "ACE Inhibitors"],
      ["Creatinine Test", "GFR Measurement"]),
   ("F41", "Anxiety Disorders", ["SSRIs", "CBT"],
      ["Psychiatric Evaluation"]),
   ("M54", "Back Pain", ["NSAIDs", "Physical Therapy"], ["X-ray", "MRI"]),
   ("R51", "Headache", ["Analgesics", "Triptans"], ["Neurological Exam"])]

/-- Treatment lookup: the `selected_code in diagnosis_map` membership
test and the unpacking on lines 132-136, with `none` for the graceful
not-found state. -/
def lookup (code : String) : Option (String × List String × List String) :=
  (diagnosis_map.find? (fun e => e.1 == code)).map (·.2)

/-- C6: looking up "I10" yields the condition "Hypertension" with a
non-empty treatment list and a non-empty procedure list, and looking up
the out-of-vocabulary code "Z99" yields the not-found state rather than
an error. -/
theorem treatment_lookup_i10_z99 :
    (∃ ts ps, lookup "I10" = some ("Hypertension", ts, ps) ∧
      ts ≠ [] ∧ ps ≠ []) ∧
    lookup "Z99" = none := by
  exact ⟨⟨["ACE Inhibitors", "Beta Blockers"], ["Blood Pressure Monitoring"],
    by decide, by decide, by decide⟩, by decide⟩

/-- The session's process-wide state: the table loaded at startup,
read-only afterwards. -/
structure SessionState where
  data : List PatientRecord
deriving DecidableEq, Repr

/-- One synchronous run of stages 2→4 on the loaded table: filter, then
the survival and Cox views over the filtered subset, returned together
with the session state after the run.  Each stage only builds new
values from its input. -/
def runPipeline (s : SessionState) (c : FilterCriteria)
    (g : Option GroupField) :
    (List PatientRecord × List SurvivalCurve × StageView) × SessionState :=
  let fd := filtered_data s.data c
  ((fd, estimate fd g, coxStage fd), s)

/-- C9: a pipeline run leaves the loaded table unchanged — the state
after the run equals the state before it — and the filtered subset the
downstream stages consumed is still exactly the filter's output, a
subsequence (a fresh derived view) of the original table. -/
theorem pipeline_preserves_table (s : SessionState) (c : FilterCriteria)
    (g : Option GroupField) :
    (runPipeline s c g).2 = s ∧
    (runPipeline s c g).1.1 = filtered_data s.data c ∧
    ((runPipeline s c g).1.1).Sublist s.data :=
  ⟨rfl, rfl, List.filter_sublist _⟩

end MedSurvive
